import Mathlib

/-!
Shallow embedding of the `treacle` decision-tree crate.

Static side (src/tree.rs, src/tree/nodes.rs): the `Decision` enum (with its
hidden `_InputMarker` variant), the `Tree` driver loop, and the three node
families `BinaryNode`, `HashMapNode`, `PredicateListNode`.  Rust boxed
predicates `Box<dyn Fn(&I) -> bool>` are embedded as Lean functions
`I → Bool`; `std::collections::HashMap` is embedded as an association list
with insert-replaces-existing-key semantics.
-/

set_option autoImplicit false


namespace Treacle

/-- Embedding of the `Decision` enum of src/tree.rs: either another node to
consult, a final action, or the hidden phantom variant `_InputMarker`. -/
inductive Decision (N A : Type) where
  | Node : N → Decision N A
  | Action : A → Decision N A
  | InputMarker : Decision N A

/-- Embedding of `Decision::action` (src/tree.rs line 31). -/
def Decision.action {N A : Type} (a : A) : Decision N A :=
  Decision.Action a

/-- Embedding of `Decision::node` (src/tree.rs line 42); the `Box::new` is
erased by the embedding. -/
def Decision.node {N A : Type} (n : N) : Decision N A :=
  Decision.Node n

/-- Embedding of `BinaryNode` (src/tree/nodes.rs lines 9-33): a predicate and
two decisions. -/
inductive BinaryNode (I A : Type) where
  | mk (condition : I → Bool)
      (on_true : Decision (BinaryNode I A) A)
      (on_false : Decision (BinaryNode I A) A)

/-- Embedding of `impl Node for BinaryNode` (src/tree/nodes.rs lines 35-44). -/
def BinaryNode.decide {I A : Type} :
    BinaryNode I A → I → Decision (BinaryNode I A) A
  | .mk condition on_true on_false, input =>
      if condition input then on_true else on_false

/-- Model of `std::collections::HashMap::insert`: replace the value stored for
an existing key in place, otherwise append the new entry. -/
def hashMapInsert {K V : Type} [DecidableEq K] (k : K) (v : V) :
    List (K × V) → List (K × V)
  | [] => [(k, v)]
  | (k', v') :: rest =>
      if k' = k then (k, v) :: rest else (k', v') :: hashMapInsert k v rest

/-- Model of `std::collections::HashMap::get`: the value stored for the key,
if any. -/
def hashMapGet {K V : Type} [DecidableEq K] (k : K) :
    List (K × V) → Option V
  | [] => none
  | (k', v') :: rest => if k' = k then some v' else hashMapGet k rest

/-- Embedding of `HashMapNode` (src/tree/nodes.rs line 71): a map from inputs
to decisions (as an association list) plus a default decision. -/
inductive HashMapNode (I A : Type) where
  | mk (entries : List (I × Decision (HashMapNode I A) A))
      (dflt : Decision (HashMapNode I A) A)

/-- Entries of a `HashMapNode` (field `.0` of the Rust tuple struct). -/
def HashMapNode.entries {I A : Type} :
    HashMapNode I A → List (I × Decision (HashMapNode I A) A)
  | .mk entries _ => entries

/-- Embedding of `HashMapNode::new` (src/tree/nodes.rs line 79). -/
def HashMapNode.new {I A : Type}
    (dflt : Decision (HashMapNode I A) A) : HashMapNode I A :=
  .mk [] dflt

/-- Embedding of `HashMapNode::add_decision` (src/tree/nodes.rs line 88):
`self.0.insert(value, decision)`. -/
def HashMapNode.add_decision {I A : Type} [DecidableEq I]
    (m : HashMapNode I A) (value : I) (decision : Decision (HashMapNode I A) A) :
    HashMapNode I A :=
  match m with
  | .mk entries dflt => .mk (hashMapInsert value decision entries) dflt

/-- Embedding of `HashMapNode::get_decision` (src/tree/nodes.rs line 92):
`self.0.get(input)`. -/
def HashMapNode.get_decision {I A : Type} [DecidableEq I]
    (m : HashMapNode I A) (input : I) : Option (Decision (HashMapNode I A) A) :=
  match m with
  | .mk entries _ => hashMapGet input entries

/-- Embedding of `HashMapNode::default_decision` (src/tree/nodes.rs line 96):
`&self.1`. -/
def HashMapNode.default_decision {I A : Type}
    (m : HashMapNode I A) : Decision (HashMapNode I A) A :=
  match m with
  | .mk _ dflt => dflt

/-- Embedding of the `MappingNode::add_action` default method
(src/tree/nodes.rs line 54) for `HashMapNode`. -/
def HashMapNode.add_action {I A : Type} [DecidableEq I]
    (m : HashMapNode I A) (value : I) (a : A) : HashMapNode I A :=
  m.add_decision value (Decision.Action a)

/-- Embedding of the `MappingNode::add_node` default method
(src/tree/nodes.rs line 58) for `HashMapNode`. -/
def HashMapNode.add_node {I A : Type} [DecidableEq I]
    (m : HashMapNode I A) (value : I) (n : HashMapNode I A) : HashMapNode I A :=
  m.add_decision value (Decision.node n)

/-- Embedding of the `MappingNode::decide` default method
(src/tree/nodes.rs lines 62-67), used by `impl Node for HashMapNode`. -/
def HashMapNode.decide {I A : Type} [DecidableEq I]
    (m : HashMapNode I A) (input : I) : Decision (HashMapNode I A) A :=
  match m.get_decision input with
  | some d => d
  | none => m.default_decision

/-- First decision in the list whose predicate accepts the input; the shared
iteration pattern of `PredicateListNode::decide`, `PredicatedNodesDecider::decide`
and `ContainsDecider::decide`. -/
def firstMatch {I D : Type} (input : I) :
    List ((I → Bool) × D) → Option D
  | [] => none
  | (p, d) :: rest => if p input then some d else firstMatch input rest

/-- Embedding of `PredicateListNode` (src/tree/nodes.rs lines 111-114): an
ordered list of (predicate, decision) pairs plus a default decision. -/
inductive PredicateListNode (I A : Type) where
  | mk (entries : List ((I → Bool) × Decision (PredicateListNode I A) A))
      (dflt : Decision (PredicateListNode I A) A)

/-- Entries of a `PredicateListNode` (field `.0` of the Rust tuple struct). -/
def PredicateListNode.entries {I A : Type} :
    PredicateListNode I A → List ((I → Bool) × Decision (PredicateListNode I A) A)
  | .mk entries _ => entries

/-- Default decision of a `PredicateListNode` (field `.1`). -/
def PredicateListNode.dflt {I A : Type} :
    PredicateListNode I A → Decision (PredicateListNode I A) A
  | .mk _ dflt => dflt

/-- Embedding of `PredicateListNode::new` (src/tree/nodes.rs line 117). -/
def PredicateListNode.new {I A : Type}
    (dflt : Decision (PredicateListNode I A) A) : PredicateListNode I A :=
  .mk [] dflt

/-- Embedding of `PredicateListNode::add_decision` (src/tree/nodes.rs
line 121): `self.0.push((predicate, decision))`. -/
def PredicateListNode.add_decision {I A : Type}
    (n : PredicateListNode I A) (predicate : I → Bool)
    (decision : Decision (PredicateListNode I A) A) : PredicateListNode I A :=
  match n with
  | .mk entries dflt => .mk (entries ++ [(predicate, decision)]) dflt

/-- Embedding of `PredicateListNode::add_action` (src/tree/nodes.rs line 125). -/
def PredicateListNode.add_action {I A : Type}
    (n : PredicateListNode I A) (predicate : I → Bool) (a : A) :
    PredicateListNode I A :=
  n.add_decision predicate (Decision.action a)

/-- Embedding of `PredicateListNode::add_node` (src/tree/nodes.rs line 129). -/
def PredicateListNode.add_node {I A : Type}
    (n : PredicateListNode I A) (predicate : I → Bool)
    (child : PredicateListNode I A) : PredicateListNode I A :=
  n.add_decision predicate (Decision.node child)

/-- Embedding of `impl Node for PredicateListNode` (src/tree/nodes.rs
lines 134-143): scan the pairs in order, return the first decision whose
predicate accepts the input, else the default. -/
def PredicateListNode.decide {I A : Type}
    (n : PredicateListNode I A) (input : I) :
    Decision (PredicateListNode I A) A :=
  match firstMatch input n.entries with
  | some d => d
  | none => n.dflt

/-- Embedding of the `Tree` struct (src/tree.rs lines 49-55): a single owner
of one root node. -/
structure Tree (N : Type) where
  root : N

/-- Embedding of `Tree::new` (src/tree.rs line 61). -/
def Tree.new {N : Type} (root : N) : Tree N :=
  ⟨root⟩

/-- Embedding of `Tree::root_node` (src/tree.rs line 68). -/
def Tree.root_node {N : Type} (t : Tree N) : N :=
  t.root

/-- Outcome of one run of the traversal loop of `Tree::decide`: an answer, the
`unreachable!()` panic branch, or exhaustion of the step budget the embedding
adds to express the unbounded Rust `loop`. -/
inductive LoopResult (A : Type) where
  | answer : A → LoopResult A
  | panicked : LoopResult A
  | outOfFuel : LoopResult A

/-- Embedding of the iterative traversal loop of `Tree::decide` (src/tree.rs
lines 72-81), parameterised by the `Node` implementation's `decide` method
(`step`) and by a fuel bound standing for the unbounded Rust `loop`. -/
def decideLoop {N I A : Type} (step : N → I → Decision N A) :
    Nat → N → I → LoopResult A
  | 0, _, _ => .outOfFuel
  | fuel + 1, node, input =>
      match step node input with
      | .Node n => decideLoop step fuel n input
      | .Action a => .answer a
      | .InputMarker => .panicked

/-- Embedding of `Tree::decide` (src/tree.rs lines 72-81): run the traversal
loop starting at the root. -/
def Tree.decide {N I A : Type} (step : N → I → Decision N A)
    (fuel : Nat) (t : Tree N) (input : I) : LoopResult A :=
  decideLoop step fuel t.root input

/-!
Construction invariant: every `Decision` reachable from a node was built with
the `Decision::node` / `Decision::action` constructors, so the hidden
`_InputMarker` variant never occurs.  One mutual inductive predicate per
static node family.
-/

mutual
/-- Invariant of a `BinaryNode` built only with `Decision::node` and
`Decision::action`: no reachable decision is the `_InputMarker` variant. -/
inductive BinaryNode.NoMarker {I A : Type} : BinaryNode I A → Prop where
  | mk {c : I → Bool} {t f : Decision (BinaryNode I A) A} :
      BinaryNode.DecNoMarker t → BinaryNode.DecNoMarker f →
      BinaryNode.NoMarker (.mk c t f)
/-- Marker-freedom for a decision over `BinaryNode` children. -/
inductive BinaryNode.DecNoMarker {I A : Type} :
    Decision (BinaryNode I A) A → Prop where
  | node {n : BinaryNode I A} : BinaryNode.NoMarker n →
      BinaryNode.DecNoMarker (.Node n)
  | action {a : A} : BinaryNode.DecNoMarker (.Action a)
end

mutual
/-- Invariant of a `HashMapNode` built only with `Decision::node` and
`Decision::action`: no reachable decision is the `_InputMarker` variant. -/
inductive HashMapNode.NoMarker {I A : Type} : HashMapNode I A → Prop where
  | mk {entries : List (I × Decision (HashMapNode I A) A)}
      {dflt : Decision (HashMapNode I A) A} :
      (∀ e ∈ entries, HashMapNode.DecNoMarker e.2) →
      HashMapNode.DecNoMarker dflt →
      HashMapNode.NoMarker (.mk entries dflt)
/-- Marker-freedom for a decision over `HashMapNode` children. -/
inductive HashMapNode.DecNoMarker {I A : Type} :
    Decision (HashMapNode I A) A → Prop where
  | node {n : HashMapNode I A} : HashMapNode.NoMarker n →
      HashMapNode.DecNoMarker (.Node n)
  | action {a : A} : HashMapNode.DecNoMarker (.Action a)
end

mutual
/-- Invariant of a `PredicateListNode` built only with `Decision::node` and
`Decision::action`: no reachable decision is the `_InputMarker` variant. -/
inductive PredicateListNode.NoMarker {I A : Type} :
    PredicateListNode I A → Prop where
  | mk {entries : List ((I → Bool) × Decision (PredicateListNode I A) A)}
      {dflt : Decision (PredicateListNode I A) A} :
      (∀ e ∈ entries, PredicateListNode.DecNoMarker e.2) →
      PredicateListNode.DecNoMarker dflt →
      PredicateListNode.NoMarker (.mk entries dflt)
/-- Marker-freedom for a decision over `PredicateListNode` children. -/
inductive PredicateListNode.DecNoMarker {I A : Type} :
    Decision (PredicateListNode I A) A → Prop where
  | node {n : PredicateListNode I A} : PredicateListNode.NoMarker n →
      PredicateListNode.DecNoMarker (.Node n)
  | action {a : A} : PredicateListNode.DecNoMarker (.Action a)
end

/-- One decision step of a node family is safe: on inputs satisfying the
invariant it never produces the marker variant, and any child it continues to
is strictly smaller and satisfies the invariant again. -/
def SafeStep {N I A : Type} [SizeOf N]
    (step : N → I → Decision N A) (P : N → Prop) : Prop :=
  ∀ t, P t → ∀ i,
    step t i ≠ .InputMarker ∧
    ∀ n, step t i = .Node n → P n ∧ sizeOf n < sizeOf t

namespace dyn

mutual
/-- Modelled from the spec: the borrowed `Node` view of the dynamic decider
family.  src/tree/deciders.rs uses `super::Node`, whose definition is not
under src/; per the spec a branch handle is either "answer" (cheaply
duplicable, held by value) or "continue to a decider" (a dereferenced,
never-duplicated handle). -/
inductive Node (I A : Type) where
  | Answer : A → Node I A
  | Decision : Decision I A → Node I A
/-- Modelled from the spec: the type-erased `Decision` handle of the dynamic
decider family (`Decision::new(decider)` in src/tree/deciders.rs stores a
`Decider` trait object behind one narrow interface, the single method
`decide(input) -> Node`); its definition is not under src/, so the embedding
erases the held decider to that one method. -/
inductive Decision (I A : Type) where
  | new : (I → Node I A) → Decision I A
/-- Modelled from the spec: `OwnedNode`, the owned branch handle used by the
deciders; its definition is not under src/.  Either an answer held by value
or an owned type-erased `Decision`. -/
inductive OwnedNode (I A : Type) where
  | Answer : A → OwnedNode I A
  | Decision : Decision I A → OwnedNode I A
end

/-- Modelled from the spec: the conversion from `&OwnedNode` to the borrowed
`Node` view used by the deciders as `(&self.on_true).into()` — for an Answer
branch it produces a fresh duplicate of the answer value, for a Continue
branch it borrows the held decider without duplication. -/
def OwnedNode.toNode {I A : Type} : OwnedNode I A → Node I A
  | .Answer a => .Answer a
  | .Decision d => .Decision d

/-- Modelled from the spec: the driver of a dynamic `Decision` (its `decide`
used by the tests of src/tree/deciders.rs, defined outside src/): call the
held decider, return the value on an Answer result, continue with the
referenced decision on a Continue result; the fuel argument stands for the
unbounded loop. -/
def Decision.decideFuel {I A : Type} : Nat → Decision I A → I → Option A
  | 0, _, _ => none
  | fuel + 1, .new f, input =>
      match f input with
      | .Answer a => some a
      | .Decision d => Decision.decideFuel fuel d input

/-- Embedding of `SimpleDecider` (src/tree/deciders.rs lines 17-22): wraps a
function from input to the node to use. -/
structure SimpleDecider (I A : Type) where
  func : I → Node I A

/-- Embedding of `SimpleDecider::new` (src/tree/deciders.rs line 19). -/
def SimpleDecider.new {I A : Type} (func : I → Node I A) : SimpleDecider I A :=
  ⟨func⟩

/-- Embedding of `impl Decider for SimpleDecider` (src/tree/deciders.rs
lines 24-29). -/
def SimpleDecider.decide {I A : Type} (d : SimpleDecider I A) (input : I) :
    Node I A :=
  d.func input

/-- Embedding of `BinaryDecider` (src/tree/deciders.rs lines 33-50). -/
structure BinaryDecider (I A : Type) where
  predicate : I → Bool
  on_true : OwnedNode I A
  on_false : OwnedNode I A

/-- Embedding of `BinaryDecider::new` (src/tree/deciders.rs lines 39-50). -/
def BinaryDecider.new {I A : Type} (predicate : I → Bool)
    (on_true on_false : OwnedNode I A) : BinaryDecider I A :=
  ⟨predicate, on_true, on_false⟩

/-- Embedding of `impl Decider for BinaryDecider` (src/tree/deciders.rs
lines 52-61). -/
def BinaryDecider.decide {I A : Type} (d : BinaryDecider I A) (input : I) :
    Node I A :=
  if d.predicate input then d.on_true.toNode else d.on_false.toNode

/-- Embedding of `PredicatedNodesDecider` (src/tree/deciders.rs line 67): an
ordered list of (predicate, owned node) pairs plus a default owned node. -/
structure PredicatedNodesDecider (I A : Type) where
  entries : List ((I → Bool) × OwnedNode I A)
  dflt : OwnedNode I A

/-- Embedding of `PredicatedNodesDecider::new` (src/tree/deciders.rs
line 70). -/
def PredicatedNodesDecider.new {I A : Type} (dflt : OwnedNode I A) :
    PredicatedNodesDecider I A :=
  ⟨[], dflt⟩

/-- Embedding of `PredicatedNodesDecider::add_node` (src/tree/deciders.rs
line 75): `self.0.push((predicate, node))`. -/
def PredicatedNodesDecider.add_node {I A : Type}
    (d : PredicatedNodesDecider I A) (predicate : I → Bool)
    (node : OwnedNode I A) : PredicatedNodesDecider I A :=
  ⟨d.entries ++ [(predicate, node)], d.dflt⟩

/-- Embedding of `PredicatedNodesDecider::add_answer` (src/tree/deciders.rs
line 81). -/
def PredicatedNodesDecider.add_answer {I A : Type}
    (d : PredicatedNodesDecider I A) (predicate : I → Bool) (answer : A) :
    PredicatedNodesDecider I A :=
  d.add_node predicate (.Answer answer)

/-- Embedding of `PredicatedNodesDecider::add_decision` (src/tree/deciders.rs
line 87), the held decider erased to its decide method. -/
def PredicatedNodesDecider.add_decision {I A : Type}
    (d : PredicatedNodesDecider I A) (predicate : I → Bool)
    (decider : I → Node I A) : PredicatedNodesDecider I A :=
  d.add_node predicate (.Decision (Decision.new decider))

/-- Embedding of `impl Decider for PredicatedNodesDecider`
(src/tree/deciders.rs lines 95-104): scan the pairs in the order they were
added and return the first node whose predicate accepts the input, else the
default. -/
def PredicatedNodesDecider.decide {I A : Type}
    (d : PredicatedNodesDecider I A) (input : I) : Node I A :=
  match firstMatch input d.entries with
  | some n => n.toNode
  | none => d.dflt.toNode

/-- Embedding of `ContainsDecider` (src/tree/deciders.rs line 111): an
ordered list of (container, owned node) pairs plus a default; the boxed
`Container` trait object is erased to its single `contains` method. -/
structure ContainsDecider (I A : Type) where
  entries : List ((I → Bool) × OwnedNode I A)
  dflt : OwnedNode I A

/-- Embedding of `ContainsDecider::new` (src/tree/deciders.rs line 115). -/
def ContainsDecider.new {I A : Type} (dflt : OwnedNode I A) :
    ContainsDecider I A :=
  ⟨[], dflt⟩

/-- Embedding of `ContainsDecider::add_container` (src/tree/deciders.rs
line 120). -/
def ContainsDecider.add_container {I A : Type} (d : ContainsDecider I A)
    (contains : I → Bool) (node : OwnedNode I A) : ContainsDecider I A :=
  ⟨d.entries ++ [(contains, node)], d.dflt⟩

/-- Embedding of `ContainsDecider::add_answer` (src/tree/deciders.rs
line 129). -/
def ContainsDecider.add_answer {I A : Type} (d : ContainsDecider I A)
    (contains : I → Bool) (answer : A) : ContainsDecider I A :=
  d.add_container contains (.Answer answer)

/-- Embedding of `ContainsDecider::add_decision` (src/tree/deciders.rs
line 138). -/
def ContainsDecider.add_decision {I A : Type} (d : ContainsDecider I A)
    (contains : I → Bool) (decider : I → Node I A) : ContainsDecider I A :=
  d.add_container contains (.Decision (Decision.new decider))

/-- Embedding of `impl Decider for ContainsDecider` (src/tree/deciders.rs
lines 147-156): the containers are consulted in the order they were added,
using `container.contains(input)` as the test, with the default when none
contains the input. -/
def ContainsDecider.decide {I A : Type} (d : ContainsDecider I A) (input : I) :
    Node I A :=
  match firstMatch input d.entries with
  | some n => n.toNode
  | none => d.dflt.toNode

end dyn

/-- Model of `std::ops::Range` (the half-open range `start..end`; the `end`
field is named `stop` because `end` is a reserved word in Lean). -/
structure Range (K : Type) where
  start : K
  stop : K

/-- Embedding of `impl Container for Range` (src/tree/deciders.rs lines
165-173), delegating to `std::ops::Range::contains`:
`start <= value && value < end`. -/
def Range.contains {K : Type} [LinearOrder K] (r : Range K) (value : K) :
    Bool :=
  decide (r.start ≤ value) && decide (value < r.stop)

/-- Model of `std::ops::RangeTo` (`..end`). -/
structure RangeTo (K : Type) where
  stop : K

/-- Embedding of `impl Container for RangeTo` (src/tree/deciders.rs lines
175-183), delegating to `std::ops::RangeTo::contains`: `value < end`. -/
def RangeTo.contains {K : Type} [LinearOrder K] (r : RangeTo K) (value : K) :
    Bool :=
  decide (value < r.stop)

/-- Model of `std::ops::RangeFrom` (`start..`). -/
structure RangeFrom (K : Type) where
  start : K

/-- Embedding of `impl Container for RangeFrom` (src/tree/deciders.rs lines
185-193), delegating to `std::ops::RangeFrom::contains`: `start <= value`. -/
def RangeFrom.contains {K : Type} [LinearOrder K] (r : RangeFrom K)
    (value : K) : Bool :=
  decide (r.start ≤ value)

/-- Model of `std::ops::RangeInclusive` (`start..=end`). -/
structure RangeInclusive (K : Type) where
  start : K
  stop : K

/-- Embedding of `impl Container for RangeInclusive` (src/tree/deciders.rs
lines 195-203), delegating to `std::ops::RangeInclusive::contains`:
`start <= value && value <= end`. -/
def RangeInclusive.contains {K : Type} [LinearOrder K] (r : RangeInclusive K)
    (value : K) : Bool :=
  decide (r.start ≤ value) && decide (value ≤ r.stop)

/-- Model of `std::ops::RangeToInclusive` (`..=end`). -/
structure RangeToInclusive (K : Type) where
  stop : K

/-- Embedding of `impl Container for RangeToInclusive` (src/tree/deciders.rs
lines 205-213), delegating to `std::ops::RangeToInclusive::contains`:
`value <= end`. -/
def RangeToInclusive.contains {K : Type} [LinearOrder K]
    (r : RangeToInclusive K) (value : K) : Bool :=
  decide (value ≤ r.stop)

/-- Embedding of the `Error` enum (src/error.rs lines 1-7). -/
inductive Error where
  | DecisionIsNotABranch : Error
  | DecisionIsNotAAnswer : Error
deriving DecidableEq

/-- Rust identifier of each `Error` variant, exactly as written in
src/error.rs. -/
def Error.variantName : Error → String
  | .DecisionIsNotABranch => "DecisionIsNotABranch"
  | .DecisionIsNotAAnswer => "DecisionIsNotAAnswer"

/-- Display message of each `Error` variant, from the `#[error(...)]`
attributes in src/error.rs. -/
def Error.message : Error → String
  | .DecisionIsNotABranch => "The decision is not a branch."
  | .DecisionIsNotAAnswer => "The decision is not an answer."

/-- Modelled from the spec: the accessor asking a `Decision` value for its
branch; src/ holds only the `Error` enum this would surface, not the accessor
itself.  Per §7 of the spec, asking an Answer variant for a branch surfaces
`DecisionIsNotABranch` as a typed, non-retryable failure. -/
def Decision.branch {N A : Type} : Decision N A → Except Error N
  | .Node n => .ok n
  | _ => .error .DecisionIsNotABranch

/-- Modelled from the spec: the accessor asking a `Decision` value for its
answer; src/ holds only the `Error` enum this would surface, not the accessor
itself.  Per §7 of the spec, asking a Continue variant for an answer surfaces
the second error kind as a typed, non-retryable failure. -/
def Decision.answer {N A : Type} : Decision N A → Except Error A
  | .Action a => .ok a
  | _ => .error .DecisionIsNotAAnswer

/-- Embedding of `impl Attributes for BTreeMap` (src/learning.rs lines
21-28): `self.get(key).unwrap()`.  The ordered map is embedded as an
association list looked up by equality; `none` models the `unwrap` panic on a
label absent from the bag. -/
def BTreeMap.get_attribute {L V : Type} [DecidableEq L]
    (bag : List (L × V)) (key : L) : Option V :=
  hashMapGet key bag

/-- Embedding of `impl Attributes for HashMap` (src/learning.rs lines 30-37):
`self.get(key).unwrap()`; `none` models the `unwrap` panic on a label absent
from the bag. -/
def HashMap.get_attribute {L V : Type} [DecidableEq L]
    (bag : List (L × V)) (key : L) : Option V :=
  hashMapGet key bag

/-- Singleton attribute bag used to exercise the lookup claims: the value 42
stored at label 0. -/
def sample_bag : List (Int × Int) :=
  [(0, 42)]

/-- Embedding of the five-way answer enum shared by the end-to-end tests
(`BinTestAction` in src/tree.rs and `TestAnswer` in src/tree/deciders.rs). -/
inductive TestAnswer where
  | LessThanNegativeTen : TestAnswer
  | LessThanZero : TestAnswer
  | Zero : TestAnswer
  | GreaterThanZero : TestAnswer
  | GreaterThanTen : TestAnswer
deriving DecidableEq

/-- Embedding of `TestAnswer::get_from_number` (src/tree/deciders.rs lines
306-314). -/
def TestAnswer.get_from_number (number : Int) : TestAnswer :=
  if -10 ≤ number ∧ number ≤ -1 then .LessThanZero
  else if number = 0 then .Zero
  else if 1 ≤ number ∧ number ≤ 10 then .GreaterThanZero
  else if number < -10 then .LessThanNegativeTen
  else .GreaterThanTen

/-- Embedding of the `lt0_node` of `create_binary_tree` (src/tree.rs lines
110-114). -/
def lt0_node : BinaryNode Int TestAnswer :=
  .mk (fun i => decide (i < -10))
    (Decision.action .LessThanNegativeTen)
    (Decision.action .LessThanZero)

/-- Embedding of the `gt0_node` of `create_binary_tree` (src/tree.rs lines
115-119). -/
def gt0_node : BinaryNode Int TestAnswer :=
  .mk (fun i => decide (i > 10))
    (Decision.action .GreaterThanTen)
    (Decision.action .GreaterThanZero)

/-- Embedding of the `gte0_node` of `create_binary_tree` (src/tree.rs lines
120-124). -/
def gte0_node : BinaryNode Int TestAnswer :=
  .mk (fun i => decide (i = 0))
    (Decision.action .Zero)
    (Decision.node gt0_node)

/-- Embedding of `create_binary_tree` (src/tree.rs lines 108-131): the nested
binary-split tree classifying integers into the five regions. -/
def create_binary_tree : Tree (BinaryNode Int TestAnswer) :=
  Tree.new (.mk (fun n => decide (n ≥ 0))
    (Decision.node gte0_node)
    (Decision.node lt0_node))

/-- Embedding of the decider built by `test_predicated_nodes_decider`
(src/tree/deciders.rs lines 346-365): four predicate entries in append order
with a `Zero` default. -/
def predicated_decider : dyn.PredicatedNodesDecider Int TestAnswer :=
  ((((dyn.PredicatedNodesDecider.new (.Answer .Zero)).add_answer
      (fun i => decide (i < -10)) .LessThanNegativeTen).add_answer
      (fun i => decide (i > 10)) .GreaterThanTen).add_answer
      (fun i => decide (i < 0)) .LessThanZero).add_answer
      (fun i => decide (i > 0)) .GreaterThanZero

/-- Embedding of the decider built by `test_container_decider_with_ranges`
(src/tree/deciders.rs lines 368-375): the ranges `-10..0`, `1..=10`, `11..`
and `..-10` in append order with a `Zero` default, each range erased to its
`contains` method. -/
def contains_decider : dyn.ContainsDecider Int TestAnswer :=
  ((((dyn.ContainsDecider.new (.Answer .Zero)).add_answer
      (Range.contains ⟨-10, 0⟩) .LessThanZero).add_answer
      (RangeInclusive.contains ⟨1, 10⟩) .GreaterThanZero).add_answer
      (RangeFrom.contains ⟨11⟩) .GreaterThanTen).add_answer
      (RangeTo.contains ⟨-10⟩) .LessThanNegativeTen

/-- Main loop lemma: a safe step function makes the traversal loop of
`Tree::decide` produce one answer, the same for every sufficient fuel. -/
theorem decideLoop_total {N I A : Type} [SizeOf N]
    {step : N → I → Decision N A} {P : N → Prop} (hsafe : SafeStep step P) :
    ∀ (m : Nat) (t : N), sizeOf t ≤ m → P t → ∀ i,
      ∃ a, ∀ fuel, sizeOf t < fuel → decideLoop step fuel t i = .answer a := by
  intro m
  induction m with
  | zero =>
    intro t hle hP i
    rcases (hsafe t hP i) with ⟨hmark, hnode⟩
    match hstep : step t i with
    | .Node n =>
      exact absurd ((hnode n hstep).2) (by omega)
    | .Action a =>
      refine ⟨a, ?_⟩
      intro fuel hfuel
      match fuel, hfuel with
      | f + 1, _ => simp [decideLoop, hstep]
    | .InputMarker => exact absurd hstep hmark
  | succ m ih =>
    intro t hle hP i
    rcases (hsafe t hP i) with ⟨hmark, hnode⟩
    match hstep : step t i with
    | .Node n =>
      rcases hnode n hstep with ⟨hPn, hsz⟩
      rcases ih n (by omega) hPn i with ⟨a, ha⟩
      refine ⟨a, ?_⟩
      intro fuel hfuel
      match fuel, hfuel with
      | f + 1, hf =>
        have : decideLoop step (f + 1) t i = decideLoop step f n i := by
          simp [decideLoop, hstep]
        rw [this]
        exact ha f (by omega)
    | .Action a =>
      refine ⟨a, ?_⟩
      intro fuel hfuel
      match fuel, hfuel with
      | f + 1, _ => simp [decideLoop, hstep]
    | .InputMarker => exact absurd hstep hmark

/-- Safe-step lemma for the loop never reaching the panic branch: a safe step
function means the loop never returns `panicked`, whatever the fuel. -/
theorem decideLoop_no_panic {N I A : Type} [SizeOf N]
    {step : N → I → Decision N A} {P : N → Prop} (hsafe : SafeStep step P) :
    ∀ (fuel : Nat) (t : N), P t → ∀ i,
      decideLoop step fuel t i ≠ .panicked := by
  intro fuel
  induction fuel with
  | zero => intro t hP i; simp [decideLoop]
  | succ f ih =>
    intro t hP i
    rcases (hsafe t hP i) with ⟨hmark, hnode⟩
    match hstep : step t i with
    | .Node n =>
      have : decideLoop step (f + 1) t i = decideLoop step f n i := by
        simp [decideLoop, hstep]
      rw [this]
      exact ih n (hnode n hstep).1 i
    | .Action a => simp [decideLoop, hstep]
    | .InputMarker => exact absurd hstep hmark

/-- Step safety of `BinaryNode::decide` under marker-freedom. -/
theorem BinaryNode.binary_safeStep {I A : Type} :
    SafeStep (BinaryNode.decide (I := I) (A := A)) BinaryNode.NoMarker := by
  intro t hP i
  rcases hP with ⟨hdt, hdf⟩
  constructor
  · intro hcon
    rw [BinaryNode.decide] at hcon
    split at hcon
    · cases hdt <;> simp_all
    · cases hdf <;> simp_all
  · intro n hn
    rw [BinaryNode.decide] at hn
    split at hn
    · cases hdt with
      | node hm => cases hn; exact ⟨hm, by simp; omega⟩
      | action => cases hn
    · cases hdf with
      | node hm => cases hn; exact ⟨hm, by simp; omega⟩
      | action => cases hn

/-- A successful `hashMapGet` returns a value stored in the list. -/
theorem hashMapGet_mem {K V : Type} [DecidableEq K] {k : K} {v : V}
    {l : List (K × V)} (h : hashMapGet k l = some v) : ∃ k', (k', v) ∈ l := by
  induction l with
  | nil => simp [hashMapGet] at h
  | cons e rest ih =>
    match e with
    | (k', v') =>
      rw [hashMapGet] at h
      split at h
      · exact ⟨k', by simp_all⟩
      · rcases ih h with ⟨k'', hmem⟩
        exact ⟨k'', List.mem_cons_of_mem _ hmem⟩

/-- A successful `firstMatch` returns a decision stored in the list, paired
with a predicate accepting the input. -/
theorem firstMatch_mem {I D : Type} {input : I} {d : D}
    {l : List ((I → Bool) × D)} (h : firstMatch input l = some d) :
    ∃ p ∈ l, p.2 = d ∧ p.1 input = true := by
  induction l with
  | nil => simp [firstMatch] at h
  | cons e rest ih =>
    match e with
    | (p, d') =>
      rw [firstMatch] at h
      split at h
      · rename_i hp
        have hd : d' = d := Option.some.inj h
        subst hd
        exact ⟨(p, d'), List.mem_cons_self _ _, rfl, hp⟩
      · rcases ih h with ⟨q, hq, hqd, hqt⟩
        exact ⟨q, List.mem_cons_of_mem _ hq, hqd, hqt⟩

/-- First-match characterisation of `firstMatch`: if the predicate at index
`j` accepts the input and every earlier one rejects it, the scan stops at
index `j`. -/
theorem firstMatch_eq_get {I D : Type} (input : I)
    (l : List ((I → Bool) × D)) (j : Nat) (hj : j < l.length)
    (htrue : (l.get ⟨j, hj⟩).1 input = true)
    (hfalse : ∀ k (hk : k < j), (l.get ⟨k, Nat.lt_trans hk hj⟩).1 input = false) :
    firstMatch input l = some (l.get ⟨j, hj⟩).2 := by
  induction l generalizing j with
  | nil => simp at hj
  | cons e rest ih =>
    match e with
    | (p, d') =>
      match j with
      | 0 =>
        have htrue' : p input = true := htrue
        rw [firstMatch, if_pos htrue']
        rfl
      | j' + 1 =>
        have hp : p input = false := hfalse 0 (Nat.succ_pos j')
        simp only [List.get_cons_succ] at htrue ⊢
        rw [firstMatch]
        rw [if_neg (by simp [hp])]
        exact ih j' (Nat.lt_of_succ_lt_succ hj) htrue
          (fun k hk => hfalse (k + 1) (Nat.succ_lt_succ hk))

/-- When no predicate accepts the input, `firstMatch` finds nothing. -/
theorem firstMatch_eq_none {I D : Type} (input : I)
    (l : List ((I → Bool) × D)) (h : ∀ p ∈ l, p.1 input = false) :
    firstMatch input l = none := by
  induction l with
  | nil => rfl
  | cons e rest ih =>
    match e with
    | (p, d') =>
      have hp : p input = false := h (p, d') (List.mem_cons_self _ _)
      rw [firstMatch]
      rw [if_neg (by simp [hp])]
      exact ih (fun q hq => h q (List.mem_cons_of_mem _ hq))

/-- Entries after the first match never influence the scan: `firstMatch` is
already settled on the prefix. -/
theorem firstMatch_append {I D : Type} (input : I) {d : D}
    (l₁ l₂ : List ((I → Bool) × D)) (h : firstMatch input l₁ = some d) :
    firstMatch input (l₁ ++ l₂) = some d := by
  induction l₁ with
  | nil => simp [firstMatch] at h
  | cons e rest ih =>
    match e with
    | (p, d') =>
      rw [List.cons_append]
      rw [firstMatch] at h ⊢
      split at h
      · rename_i hp
        rw [if_pos hp]
        exact h
      · rename_i hp
        rw [if_neg hp]
        exact ih h

/-- Step safety of `HashMapNode::decide` under marker-freedom. -/
theorem HashMapNode.hashmap_safeStep {I A : Type} [DecidableEq I] :
    SafeStep (fun (m : HashMapNode I A) i => m.decide i) HashMapNode.NoMarker := by
  intro t hP i
  rcases hP with ⟨hent, hdflt⟩
  rename_i entries dflt
  have hdec : ∀ d, HashMapNode.decide (.mk entries dflt) i = d →
      (HashMapNode.DecNoMarker d ∧
        (d = dflt ∨ ∃ k', (k', d) ∈ entries)) := by
    intro d hd
    rw [HashMapNode.decide] at hd
    rcases hget : HashMapNode.get_decision (.mk entries dflt) i with _ | d'
    · rw [hget] at hd
      simp only at hd
      subst hd
      exact ⟨hdflt, Or.inl rfl⟩
    · rw [hget] at hd
      simp only at hd
      subst hd
      rw [HashMapNode.get_decision] at hget
      rcases hashMapGet_mem hget with ⟨k', hmem⟩
      exact ⟨hent (k', d') hmem, Or.inr ⟨k', hmem⟩⟩
  constructor
  · intro hcon
    rcases hdec _ hcon with ⟨hnm, _⟩
    cases hnm
  · intro n hn
    rcases hdec _ hn with ⟨hnm, hloc⟩
    cases hnm with
    | node hm =>
      refine ⟨hm, ?_⟩
      rcases hloc with h | ⟨k', hmem⟩
      · subst h; simp; omega
      · have h1 : sizeOf (k', Decision.Node n) < sizeOf entries :=
          List.sizeOf_lt_of_mem hmem
        simp at h1 ⊢
        omega

/-- Step safety of `PredicateListNode::decide` under marker-freedom. -/
theorem PredicateListNode.predicate_list_safeStep {I A : Type} :
    SafeStep (fun (n : PredicateListNode I A) i => n.decide i)
      PredicateListNode.NoMarker := by
  intro t hP i
  rcases hP with ⟨hent, hdflt⟩
  rename_i entries dflt
  have hdec : ∀ d, PredicateListNode.decide (.mk entries dflt) i = d →
      (PredicateListNode.DecNoMarker d ∧
        (d = dflt ∨ ∃ p, (p, d) ∈ entries)) := by
    intro d hd
    rw [PredicateListNode.decide] at hd
    rcases hget : firstMatch i (PredicateListNode.entries (.mk entries dflt))
        with _ | d'
    · rw [hget] at hd
      simp only at hd
      subst hd
      exact ⟨hdflt, Or.inl rfl⟩
    · rw [hget] at hd
      simp only at hd
      subst hd
      rw [PredicateListNode.entries] at hget
      rcases firstMatch_mem hget with ⟨q, hq, hqd, _⟩
      have hmem : (q.1, d') ∈ entries := by
        rw [← hqd]
        simpa using hq
      have hnm := hent (q.1, d') hmem
      exact ⟨hnm, Or.inr ⟨q.1, hmem⟩⟩
  constructor
  · intro hcon
    rcases hdec _ hcon with ⟨hnm, _⟩
    cases hnm
  · intro n hn
    rcases hdec _ hn with ⟨hnm, hloc⟩
    cases hnm with
    | node hm =>
      refine ⟨hm, ?_⟩
      rcases hloc with h | ⟨p, hmem⟩
      · subst h; simp; omega
      · have h1 : sizeOf (p, Decision.Node n) < sizeOf entries :=
          List.sizeOf_lt_of_mem hmem
        simp at h1 ⊢
        omega

/-- Inserting a key makes it retrievable with its new value. -/
theorem hashMapGet_insert_self {K V : Type} [DecidableEq K] (k : K) (v : V)
    (l : List (K × V)) : hashMapGet k (hashMapInsert k v l) = some v := by
  induction l with
  | nil => simp [hashMapInsert, hashMapGet]
  | cons e rest ih =>
    match e with
    | (k', v') =>
      rw [hashMapInsert]
      split
      · rw [hashMapGet, if_pos rfl]
      · rename_i hne
        rw [hashMapGet, if_neg hne]
        exact ih

/-- Inserting a key leaves every other key's stored value unchanged. -/
theorem hashMapGet_insert_other {K V : Type} [DecidableEq K] {k k' : K}
    (hne : k' ≠ k) (v : V) (l : List (K × V)) :
    hashMapGet k' (hashMapInsert k v l) = hashMapGet k' l := by
  have hne' : ¬(k = k') := fun h => hne h.symm
  induction l with
  | nil =>
    simp only [hashMapInsert, hashMapGet]
    rw [if_neg hne']
  | cons e rest ih =>
    match e with
    | (k'', v'') =>
      rw [hashMapInsert]
      split
      · rename_i heq
        subst heq
        rw [hashMapGet, if_neg hne', hashMapGet, if_neg hne']
      · rw [hashMapGet, hashMapGet]
        split
        · rfl
        · exact ih

/-- Re-inserting the same key collapses to the last insertion: the prior
branch is replaced, not duplicated. -/
theorem hashMapInsert_insert_self {K V : Type} [DecidableEq K] (k : K)
    (v₁ v₂ : V) (l : List (K × V)) :
    hashMapInsert k v₂ (hashMapInsert k v₁ l) = hashMapInsert k v₂ l := by
  induction l with
  | nil => simp [hashMapInsert]
  | cons e rest ih =>
    match e with
    | (k', v') =>
      rw [hashMapInsert]
      split
      · rename_i heq
        rw [hashMapInsert, if_pos rfl, hashMapInsert, if_pos heq]
      · rename_i hne
        rw [hashMapInsert, if_neg hne, hashMapInsert, if_neg hne, ih]

/-- Inserting over an existing key does not grow the map. -/
theorem hashMapInsert_length_present {K V : Type} [DecidableEq K] {k : K}
    {w : V} (v : V) {l : List (K × V)} (h : hashMapGet k l = some w) :
    (hashMapInsert k v l).length = l.length := by
  induction l with
  | nil => simp [hashMapGet] at h
  | cons e rest ih =>
    match e with
    | (k', v') =>
      rw [hashMapGet] at h
      rw [hashMapInsert]
      split
      · simp
      · rename_i hne
        rw [if_neg hne] at h
        simp [ih h]

/-- On a bag whose labels are distinct, a stored (label, value) pair is what
lookup returns. -/
theorem hashMapGet_of_mem_nodup {K V : Type} [DecidableEq K] {k : K} {v : V}
    {l : List (K × V)} (hmem : (k, v) ∈ l) (hnd : (l.map Prod.fst).Nodup) :
    hashMapGet k l = some v := by
  induction l with
  | nil => simp at hmem
  | cons e rest ih =>
    match e with
    | (k', v') =>
      simp only [List.map_cons, List.nodup_cons] at hnd
      rcases List.mem_cons.mp hmem with heq | hmem'
      · rw [Prod.mk.injEq] at heq
        rw [hashMapGet, if_pos heq.1.symm, heq.2]
      · rw [hashMapGet]
        split
        · rename_i heq
          subst heq
          exact absurd (List.mem_map_of_mem Prod.fst hmem') hnd.1
        · exact ih hmem' hnd.2

/-- Lookup of a label stored nowhere in the bag finds nothing: the modelled
panic of `unwrap`. -/
theorem hashMapGet_of_not_mem {K V : Type} [DecidableEq K] {k : K}
    {l : List (K × V)} (h : ∀ v, (k, v) ∉ l) : hashMapGet k l = none := by
  induction l with
  | nil => rfl
  | cons e rest ih =>
    match e with
    | (k', v') =>
      rw [hashMapGet]
      split
      · rename_i heq
        subst heq
        exact absurd (List.mem_cons_self _ _) (h v')
      · exact ih (fun v hv => h v (List.mem_cons_of_mem _ hv))

/-- Lookup of a label stored somewhere in the bag finds a value. -/
theorem hashMapGet_isSome_of_mem {K V : Type} [DecidableEq K] {k : K} {v : V}
    {l : List (K × V)} (hmem : (k, v) ∈ l) : ∃ w, hashMapGet k l = some w := by
  induction l with
  | nil => simp at hmem
  | cons e rest ih =>
    match e with
    | (k', v') =>
      rw [hashMapGet]
      split
      · exact ⟨v', rfl⟩
      · rename_i hne
        rcases List.mem_cons.mp hmem with heq | hmem'
        · rw [Prod.mk.injEq] at heq
          exact absurd heq.1.symm hne
        · exact ih hmem'

/-- A scan over a list holding one accepting predicate settles on something. -/
theorem firstMatch_all_false_of_none {I D : Type} {input : I}
    {l : List ((I → Bool) × D)} (h : firstMatch input l = none) :
    ∀ p ∈ l, p.1 input = false := by
  induction l with
  | nil => simp
  | cons e rest ih =>
    match e with
    | (p, d') =>
      rw [firstMatch] at h
      split at h
      · exact absurd h (by simp)
      · rename_i hp
        intro q hq
        rcases List.mem_cons.mp hq with heq | hq'
        · subst heq
          simpa using hp
        · exact ih h q hq'

/-- C3: for every exact-match table node, `add_decision(k, d)` makes
`get_decision(k)` return `d`; re-adding a decision for the same key replaces
the prior branch rather than producing a duplicate entry (the double add
collapses to the last one and the entry count does not grow); and
`decide(input)` returns `get_decision(input)` when a mapping exists, else the
default decision. -/
theorem HashMapNode.table_semantics {I A : Type} [DecidableEq I] :
    (∀ (m : HashMapNode I A) k d,
      (m.add_decision k d).get_decision k = some d) ∧
    (∀ (m : HashMapNode I A) k d₁ d₂,
      (m.add_decision k d₁).add_decision k d₂ = m.add_decision k d₂) ∧
    (∀ (m : HashMapNode I A) k d₀ d, m.get_decision k = some d₀ →
      ((m.add_decision k d).entries).length = m.entries.length) ∧
    (∀ (m : HashMapNode I A) input d, m.get_decision input = some d →
      m.decide input = d) ∧
    (∀ (m : HashMapNode I A) input, m.get_decision input = none →
      m.decide input = m.default_decision) := by
  refine ⟨?_, ?_, ?_, ?_, ?_⟩
  · intro m k d
    match m with
    | .mk entries dflt =>
      rw [HashMapNode.add_decision, HashMapNode.get_decision]
      exact hashMapGet_insert_self k d entries
  · intro m k d₁ d₂
    match m with
    | .mk entries dflt =>
      rw [HashMapNode.add_decision, HashMapNode.add_decision,
        HashMapNode.add_decision]
      rw [hashMapInsert_insert_self]
  · intro m k d₀ d h
    match m with
    | .mk entries dflt =>
      rw [HashMapNode.get_decision] at h
      rw [HashMapNode.add_decision, HashMapNode.entries, HashMapNode.entries]
      exact hashMapInsert_length_present d h
  · intro m input d h
    rw [HashMapNode.decide, h]
  · intro m input h
    rw [HashMapNode.decide, h]

/-- Witness for C3: a concrete table over integers, exercising the
hypothesis-bearing conjuncts at key 7. -/
theorem HashMapNode.table_semantics_witness :
    ((((HashMapNode.new (I := Int) (Decision.action TestAnswer.Zero)).add_decision
        7 (Decision.action TestAnswer.GreaterThanZero)).entries).length = 1 ∧
      ((HashMapNode.new (I := Int) (Decision.action TestAnswer.Zero)).add_decision
        7 (Decision.action TestAnswer.GreaterThanZero)).decide 7 =
        Decision.action TestAnswer.GreaterThanZero) ∧
    (HashMapNode.new (I := Int) (Decision.action TestAnswer.Zero)).decide 8 =
      (HashMapNode.new (I := Int) (Decision.action TestAnswer.Zero)).default_decision := by
  refine ⟨⟨?_, ?_⟩, ?_⟩
  · exact (HashMapNode.table_semantics).2.2.1
      ((HashMapNode.new (Decision.action TestAnswer.Zero)).add_decision
        7 (Decision.action TestAnswer.GreaterThanZero))
      7 (Decision.action TestAnswer.GreaterThanZero)
      (Decision.action TestAnswer.GreaterThanZero) (by rfl)
  · exact (HashMapNode.table_semantics).2.2.2.1
      ((HashMapNode.new (Decision.action TestAnswer.Zero)).add_decision
        7 (Decision.action TestAnswer.GreaterThanZero))
      7 (Decision.action TestAnswer.GreaterThanZero) (by rfl)
  · exact (HashMapNode.table_semantics).2.2.2.2
      (HashMapNode.new (Decision.action TestAnswer.Zero)) 8 (by rfl)

/-- C10: `HashMapNode::add_decision(k, d)` modifies only the mapping for key
`k`: every distinct key keeps its prior decision, and the default decision is
unchanged. -/
theorem HashMapNode.add_decision_frame {I A : Type} [DecidableEq I]
    (m : HashMapNode I A) (k k' : I) (d : Decision (HashMapNode I A) A)
    (hne : k' ≠ k) :
    (m.add_decision k d).get_decision k' = m.get_decision k' ∧
    (m.add_decision k d).default_decision = m.default_decision := by
  match m with
  | .mk entries dflt =>
    constructor
    · rw [HashMapNode.add_decision, HashMapNode.get_decision,
        HashMapNode.get_decision]
      exact hashMapGet_insert_other hne d entries
    · rw [HashMapNode.add_decision, HashMapNode.default_decision,
        HashMapNode.default_decision]

/-- Witness for C10: adding at key 7 leaves key 8 and the default alone. -/
theorem HashMapNode.add_decision_frame_witness :
    (8 : Int) ≠ 7 ∧
    (((HashMapNode.new (I := Int) (Decision.action TestAnswer.Zero)).add_decision
        7 (Decision.action TestAnswer.GreaterThanZero)).get_decision 8 =
      (HashMapNode.new (I := Int) (Decision.action TestAnswer.Zero)).get_decision 8 ∧
    ((HashMapNode.new (I := Int) (Decision.action TestAnswer.Zero)).add_decision
        7 (Decision.action TestAnswer.GreaterThanZero)).default_decision =
      (HashMapNode.new (I := Int) (Decision.action TestAnswer.Zero)).default_decision) :=
  ⟨by decide,
    HashMapNode.add_decision_frame
      (HashMapNode.new (Decision.action TestAnswer.Zero)) 7 8
      (Decision.action TestAnswer.GreaterThanZero) (by decide)⟩

/-- C4: a binary split node and a binary decider route to the true branch
exactly when the stored predicate evaluates to true on the input, and to the
false branch otherwise; boundary inputs are covered because the statement
quantifies over every input. -/
theorem binary_decide_routes {I A : Type}
    (condition : I → Bool) (on_true on_false : Decision (BinaryNode I A) A)
    (predicate : I → Bool) (t f : dyn.OwnedNode I A) (input : I) :
    (condition input = true →
      (BinaryNode.mk condition on_true on_false).decide input = on_true) ∧
    (condition input = false →
      (BinaryNode.mk condition on_true on_false).decide input = on_false) ∧
    (predicate input = true →
      (dyn.BinaryDecider.new predicate t f).decide input = t.toNode) ∧
    (predicate input = false →
      (dyn.BinaryDecider.new predicate t f).decide input = f.toNode) := by
  refine ⟨?_, ?_, ?_, ?_⟩ <;> intro h <;>
    simp [BinaryNode.decide, dyn.BinaryDecider.decide, dyn.BinaryDecider.new, h]

/-- Witness for C4 at the boundary input 10 of the threshold predicate
`i > 10`: both the static node and the dynamic decider route to the false
branch. -/
theorem binary_decide_routes_witness :
    (BinaryNode.mk (fun i : Int => decide (i > 10))
        (Decision.action TestAnswer.GreaterThanTen)
        (Decision.action TestAnswer.GreaterThanZero)).decide 10 =
      Decision.action TestAnswer.GreaterThanZero ∧
    (dyn.BinaryDecider.new (fun i : Int => decide (i > 10))
        (dyn.OwnedNode.Answer TestAnswer.GreaterThanTen)
        (dyn.OwnedNode.Answer TestAnswer.GreaterThanZero)).decide 10 =
      (dyn.OwnedNode.Answer TestAnswer.GreaterThanZero).toNode :=
  ⟨(binary_decide_routes (fun i : Int => decide (i > 10))
      (Decision.action TestAnswer.GreaterThanTen)
      (Decision.action TestAnswer.GreaterThanZero)
      (fun i : Int => decide (i > 10))
      (dyn.OwnedNode.Answer TestAnswer.GreaterThanTen)
      (dyn.OwnedNode.Answer TestAnswer.GreaterThanZero) 10).2.1 (by decide),
   (binary_decide_routes (fun i : Int => decide (i > 10))
      (Decision.action TestAnswer.GreaterThanTen)
      (Decision.action TestAnswer.GreaterThanZero)
      (fun i : Int => decide (i > 10))
      (dyn.OwnedNode.Answer TestAnswer.GreaterThanTen)
      (dyn.OwnedNode.Answer TestAnswer.GreaterThanZero) 10).2.2.2 (by decide)⟩

/-- C7 counterexample: no variant of the `Error` enum of src/error.rs bears
the identifier `DecisionIsNotAnAnswer` claimed by the spec; the second
variant is spelled `DecisionIsNotAAnswer`. -/
theorem error_variant_name_counterexample :
    (∀ e : Error, e.variantName ≠ "DecisionIsNotAnAnswer") ∧
    Error.DecisionIsNotAAnswer.variantName = "DecisionIsNotAAnswer" := by
  constructor
  · intro e
    cases e <;> simp [Error.variantName]
  · rfl

/-- C7 (amended): exactly two error kinds exist at the decision-model
boundary, named `DecisionIsNotABranch` and `DecisionIsNotAAnswer`, and each
is surfaced as a typed failure by the accessor using the wrong variant of a
`Decision` value: asking a Continue (`Node`) variant for an answer yields
`DecisionIsNotAAnswer`, asking an Answer (`Action`) variant for a branch
yields `DecisionIsNotABranch`. -/
theorem error_two_kinds {N A : Type} (n : N) (a : A) :
    (∀ e : Error, e = .DecisionIsNotABranch ∨ e = .DecisionIsNotAAnswer) ∧
    Error.DecisionIsNotABranch ≠ Error.DecisionIsNotAAnswer ∧
    Error.DecisionIsNotABranch.variantName = "DecisionIsNotABranch" ∧
    Error.DecisionIsNotAAnswer.variantName = "DecisionIsNotAAnswer" ∧
    Decision.answer (Decision.Node (A := A) n) =
      .error Error.DecisionIsNotAAnswer ∧
    Decision.branch (Decision.Action (N := N) a) =
      .error Error.DecisionIsNotABranch := by
  refine ⟨?_, by simp, rfl, rfl, rfl, rfl⟩
  intro e
  cases e
  · exact Or.inl rfl
  · exact Or.inr rfl

/-- C8: attribute-bag lookup (both map implementations) returns the stored
value for a present label, and fails loudly (the modelled `unwrap` panic,
`none`) for an absent one; under the precondition that the label is present
the failure branch is unreachable. -/
theorem get_attribute_spec {L V : Type} [DecidableEq L]
    (bag : List (L × V)) (key : L) :
    (∀ v, (key, v) ∈ bag → (bag.map Prod.fst).Nodup →
      BTreeMap.get_attribute bag key = some v ∧
      HashMap.get_attribute bag key = some v) ∧
    ((∀ v, (key, v) ∉ bag) →
      BTreeMap.get_attribute bag key = none ∧
      HashMap.get_attribute bag key = none) ∧
    (∀ v, (key, v) ∈ bag →
      BTreeMap.get_attribute bag key ≠ none ∧
      HashMap.get_attribute bag key ≠ none) := by
  refine ⟨?_, ?_, ?_⟩
  · intro v hmem hnd
    have h := hashMapGet_of_mem_nodup hmem hnd
    exact ⟨h, h⟩
  · intro habs
    have h := hashMapGet_of_not_mem habs
    exact ⟨h, h⟩
  · intro v hmem
    rcases hashMapGet_isSome_of_mem hmem with ⟨w, hw⟩
    rw [BTreeMap.get_attribute, HashMap.get_attribute, hw]
    exact ⟨by simp, by simp⟩

/-- Witness for C8 on the bag holding 42 at label 0: present-label lookup
returns the stored value and the panic branch is unreachable. -/
theorem get_attribute_spec_witness :
    (BTreeMap.get_attribute sample_bag 0 = some 42 ∧
      HashMap.get_attribute sample_bag 0 = some 42) ∧
    (BTreeMap.get_attribute sample_bag 0 ≠ none ∧
      HashMap.get_attribute sample_bag 0 ≠ none) :=
  ⟨(get_attribute_spec sample_bag 0).1 42 (by simp [sample_bag]) (by simp [sample_bag]),
   (get_attribute_spec sample_bag 0).2.2 42 (by simp [sample_bag])⟩

/-- C2: an ordered predicate-list node and the ordered predicate-list decider
return the decision attached to the first predicate, in append order
(`add_decision` / `add_node` append at the end), that evaluates to true for
the input; entries after the first match never influence the result
(short-circuit); and when no predicate matches, the construction-time default
is returned. -/
theorem predicate_list_first_match {I A : Type} :
    (∀ (n : PredicateListNode I A) p d,
      (n.add_decision p d).entries = n.entries ++ [(p, d)] ∧
      (n.add_decision p d).dflt = n.dflt) ∧
    (∀ (d : dyn.PredicatedNodesDecider I A) p node,
      (d.add_node p node).entries = d.entries ++ [(p, node)] ∧
      (d.add_node p node).dflt = d.dflt) ∧
    (∀ entries (dflt : Decision (PredicateListNode I A) A) (input : I)
        (j : Nat) (hj : j < List.length entries),
      (entries.get ⟨j, hj⟩).1 input = true →
      (∀ k (hk : k < j), (entries.get ⟨k, Nat.lt_trans hk hj⟩).1 input = false) →
      (PredicateListNode.mk entries dflt).decide input =
        (entries.get ⟨j, hj⟩).2) ∧
    (∀ entries (dflt : Decision (PredicateListNode I A) A) (input : I),
      (∀ p ∈ entries, p.1 input = false) →
      (PredicateListNode.mk entries dflt).decide input = dflt) ∧
    (∀ entries extra (dflt : Decision (PredicateListNode I A) A) (input : I)
        (j : Nat) (hj : j < List.length entries),
      (entries.get ⟨j, hj⟩).1 input = true →
      (PredicateListNode.mk (entries ++ extra) dflt).decide input =
        (PredicateListNode.mk entries dflt).decide input) ∧
    (∀ entries (dflt : dyn.OwnedNode I A) (input : I)
        (j : Nat) (hj : j < List.length entries),
      (entries.get ⟨j, hj⟩).1 input = true →
      (∀ k (hk : k < j), (entries.get ⟨k, Nat.lt_trans hk hj⟩).1 input = false) →
      (dyn.PredicatedNodesDecider.mk entries dflt).decide input =
        (entries.get ⟨j, hj⟩).2.toNode) ∧
    (∀ entries (dflt : dyn.OwnedNode I A) (input : I),
      (∀ p ∈ entries, p.1 input = false) →
      (dyn.PredicatedNodesDecider.mk entries dflt).decide input =
        dflt.toNode) := by
  refine ⟨?_, ?_, ?_, ?_, ?_, ?_, ?_⟩
  · intro n p d
    match n with
    | .mk entries dflt =>
      rw [PredicateListNode.add_decision]
      exact ⟨rfl, rfl⟩
  · intro d p node
    exact ⟨rfl, rfl⟩
  · intro entries dflt input j hj htrue hfalse
    rw [PredicateListNode.decide, PredicateListNode.entries,
      firstMatch_eq_get input entries j hj htrue hfalse, PredicateListNode.dflt]
  · intro entries dflt input hfalse
    rw [PredicateListNode.decide, PredicateListNode.entries,
      firstMatch_eq_none input entries hfalse, PredicateListNode.dflt]
  · intro entries extra dflt input j hj htrue
    have hsome : ∃ d, firstMatch input entries = some d := by
      rcases hm : firstMatch input entries with _ | d
      · have hall := firstMatch_all_false_of_none hm
        have := hall (entries.get ⟨j, hj⟩) (entries.get_mem j hj)
        rw [htrue] at this
        cases this
      · exact ⟨d, rfl⟩
    rcases hsome with ⟨d, hd⟩
    rw [PredicateListNode.decide, PredicateListNode.decide,
      PredicateListNode.entries, PredicateListNode.entries,
      firstMatch_append input entries extra hd, hd]
  · intro entries dflt input j hj htrue hfalse
    rw [dyn.PredicatedNodesDecider.decide]
    simp only
    rw [firstMatch_eq_get input entries j hj htrue hfalse]
  · intro entries dflt input hfalse
    rw [dyn.PredicatedNodesDecider.decide]
    simp only
    rw [firstMatch_eq_none input entries hfalse]

/-- Witness for C2 over concrete two-predicate lists probed at 5: the second
entry is the first match for both the static node and the dynamic decider,
and an all-false probe at 0 returns the default. -/
theorem predicate_list_first_match_witness :
    (PredicateListNode.mk
        [(fun i : Int => decide (i < 0), Decision.action TestAnswer.LessThanZero),
         (fun i : Int => decide (i > 0), Decision.action TestAnswer.GreaterThanZero)]
        (Decision.action TestAnswer.Zero)).decide 5 =
      Decision.action TestAnswer.GreaterThanZero ∧
    (dyn.PredicatedNodesDecider.mk
        [(fun i : Int => decide (i < 0), dyn.OwnedNode.Answer TestAnswer.LessThanZero),
         (fun i : Int => decide (i > 0), dyn.OwnedNode.Answer TestAnswer.GreaterThanZero)]
        (dyn.OwnedNode.Answer TestAnswer.Zero)).decide 5 =
      dyn.Node.Answer TestAnswer.GreaterThanZero ∧
    (PredicateListNode.mk
        [(fun i : Int => decide (i < 0), Decision.action TestAnswer.LessThanZero),
         (fun i : Int => decide (i > 0), Decision.action TestAnswer.GreaterThanZero)]
        (Decision.action TestAnswer.Zero)).decide 0 =
      Decision.action TestAnswer.Zero := by
  refine ⟨?_, ?_, ?_⟩
  · exact (predicate_list_first_match (I := Int) (A := TestAnswer)).2.2.1
      [(fun i : Int => decide (i < 0), Decision.action TestAnswer.LessThanZero),
       (fun i : Int => decide (i > 0), Decision.action TestAnswer.GreaterThanZero)]
      (Decision.action TestAnswer.Zero) 5 1 (by simp)
      (by rfl)
      (by
        intro k hk
        have hk0 : k = 0 := by omega
        subst hk0
        rfl)
  · exact (predicate_list_first_match (I := Int) (A := TestAnswer)).2.2.2.2.2.1
      [(fun i : Int => decide (i < 0), dyn.OwnedNode.Answer TestAnswer.LessThanZero),
       (fun i : Int => decide (i > 0), dyn.OwnedNode.Answer TestAnswer.GreaterThanZero)]
      (dyn.OwnedNode.Answer TestAnswer.Zero) 5 1 (by simp)
      (by rfl)
      (by
        intro k hk
        have hk0 : k = 0 := by omega
        subst hk0
        rfl)
  · exact (predicate_list_first_match (I := Int) (A := TestAnswer)).2.2.2.1
      [(fun i : Int => decide (i < 0), Decision.action TestAnswer.LessThanZero),
       (fun i : Int => decide (i > 0), Decision.action TestAnswer.GreaterThanZero)]
      (Decision.action TestAnswer.Zero) 0
      (by
        intro p hp
        simp only [List.mem_cons, List.not_mem_nil, or_false] at hp
        rcases hp with h | h <;> (subst h; rfl))

/-- C5: the membership-test decider consults its (container, node) entries in
addition order with first match winning and the default when no container
holds the input, using the container's `contains` test; a half-open `Range`
includes its lower bound and excludes its upper bound, and a
`RangeInclusive` includes both bounds. -/
theorem contains_decider_semantics {I A : Type} :
    (∀ (d : dyn.ContainsDecider I A) c node,
      (d.add_container c node).entries = d.entries ++ [(c, node)] ∧
      (d.add_container c node).dflt = d.dflt) ∧
    (∀ entries (dflt : dyn.OwnedNode I A) (input : I)
        (j : Nat) (hj : j < List.length entries),
      (entries.get ⟨j, hj⟩).1 input = true →
      (∀ k (hk : k < j), (entries.get ⟨k, Nat.lt_trans hk hj⟩).1 input = false) →
      (dyn.ContainsDecider.mk entries dflt).decide input =
        (entries.get ⟨j, hj⟩).2.toNode) ∧
    (∀ entries (dflt : dyn.OwnedNode I A) (input : I),
      (∀ p ∈ entries, p.1 input = false) →
      (dyn.ContainsDecider.mk entries dflt).decide input = dflt.toNode) ∧
    (∀ (K : Type) [LinearOrder K] (lo hi v : K),
      (Range.contains ⟨lo, hi⟩ v = true ↔ lo ≤ v ∧ v < hi) ∧
      (RangeInclusive.contains ⟨lo, hi⟩ v = true ↔ lo ≤ v ∧ v ≤ hi)) := by
  refine ⟨?_, ?_, ?_, ?_⟩
  · intro d c node
    exact ⟨rfl, rfl⟩
  · intro entries dflt input j hj htrue hfalse
    rw [dyn.ContainsDecider.decide]
    simp only
    rw [firstMatch_eq_get input entries j hj htrue hfalse]
  · intro entries dflt input hfalse
    rw [dyn.ContainsDecider.decide]
    simp only
    rw [firstMatch_eq_none input entries hfalse]
  · intro K instK lo hi v
    constructor
    · simp [Range.contains]
    · simp [RangeInclusive.contains]

/-- Witness for C5: the range `-10..0` contains its lower bound `-10` (so the
first entry wins at that probe) and `1..=10` contains both bounds. -/
theorem contains_decider_semantics_witness :
    (dyn.ContainsDecider.mk
        [(Range.contains ⟨(-10 : Int), 0⟩, dyn.OwnedNode.Answer TestAnswer.LessThanZero)]
        (dyn.OwnedNode.Answer TestAnswer.Zero)).decide (-10) =
      dyn.Node.Answer TestAnswer.LessThanZero ∧
    ((-10 : Int) ≤ -10 ∧ (-10 : Int) < 0) ∧
    ((1 : Int) ≤ 10 ∧ (10 : Int) ≤ 10) := by
  refine ⟨?_, by decide, by decide⟩
  exact (contains_decider_semantics (I := Int) (A := TestAnswer)).2.1
    [(Range.contains ⟨(-10 : Int), 0⟩, dyn.OwnedNode.Answer TestAnswer.LessThanZero)]
    (dyn.OwnedNode.Answer TestAnswer.Zero) (-10) 0 (by simp)
    (by rfl)
    (by
      intro k hk
      exact absurd hk (Nat.not_lt_zero k))

/-- Marker-freedom of the test tree of src/tree.rs: it is built exclusively
with `Decision::node` and `Decision::action`. -/
theorem create_binary_tree_noMarker :
    BinaryNode.NoMarker create_binary_tree.root :=
  BinaryNode.NoMarker.mk
    (BinaryNode.DecNoMarker.node
      (BinaryNode.NoMarker.mk
        BinaryNode.DecNoMarker.action
        (BinaryNode.DecNoMarker.node
          (BinaryNode.NoMarker.mk
            BinaryNode.DecNoMarker.action
            BinaryNode.DecNoMarker.action))))
    (BinaryNode.DecNoMarker.node
      (BinaryNode.NoMarker.mk
        BinaryNode.DecNoMarker.action
        BinaryNode.DecNoMarker.action))

/-- C1: for every constructed tree of each static node family (built with the
`Decision` constructors, so marker-free) and every input, the iterative
traversal loop of `Tree::decide` (start at the root, follow `Node` results,
stop on an `Action` result) terminates and returns exactly one `Answer`: a
single answer value is produced by every sufficiently large fuel bound. -/
theorem tree_decide_terminates (I A : Type) [DecidableEq I] :
    (∀ (t : Tree (BinaryNode I A)), BinaryNode.NoMarker t.root → ∀ input,
      ∃ a fuel₀, ∀ fuel, fuel₀ < fuel →
        Tree.decide BinaryNode.decide fuel t input = .answer a) ∧
    (∀ (t : Tree (HashMapNode I A)), HashMapNode.NoMarker t.root → ∀ input,
      ∃ a fuel₀, ∀ fuel, fuel₀ < fuel →
        Tree.decide (fun m i => m.decide i) fuel t input = .answer a) ∧
    (∀ (t : Tree (PredicateListNode I A)), PredicateListNode.NoMarker t.root →
      ∀ input,
      ∃ a fuel₀, ∀ fuel, fuel₀ < fuel →
        Tree.decide (fun n i => n.decide i) fuel t input = .answer a) := by
  refine ⟨?_, ?_, ?_⟩
  · intro t hP input
    rcases decideLoop_total BinaryNode.binary_safeStep (sizeOf t.root) t.root
      (Nat.le_refl _) hP input with ⟨a, ha⟩
    exact ⟨a, sizeOf t.root, ha⟩
  · intro t hP input
    rcases decideLoop_total HashMapNode.hashmap_safeStep (sizeOf t.root) t.root
      (Nat.le_refl _) hP input with ⟨a, ha⟩
    exact ⟨a, sizeOf t.root, ha⟩
  · intro t hP input
    rcases decideLoop_total PredicateListNode.predicate_list_safeStep (sizeOf t.root) t.root
      (Nat.le_refl _) hP input with ⟨a, ha⟩
    exact ⟨a, sizeOf t.root, ha⟩

/-- Witness for C1: the marker-freedom hypothesis holds for the binary test
tree of src/tree.rs, and traversal from input 0 settles on one answer for
every sufficient fuel. -/
theorem tree_decide_terminates_witness :
    BinaryNode.NoMarker create_binary_tree.root ∧
    ∃ a fuel₀, ∀ fuel, fuel₀ < fuel →
      Tree.decide BinaryNode.decide fuel create_binary_tree 0 = .answer a :=
  ⟨create_binary_tree_noMarker,
    (tree_decide_terminates Int TestAnswer).1 create_binary_tree
      create_binary_tree_noMarker 0⟩

/-- C9: the constructors `Decision::node` and `Decision::action` never build
the hidden `_InputMarker` variant, and on a tree of any static node family in
which every reachable decision was built with those constructors, the
`unreachable!()` panic branch of the `Tree::decide` loop is never executed,
whatever the fuel. -/
theorem tree_decide_never_panics (I A : Type) [DecidableEq I] :
    (∀ (N B : Type) (n : N) (a : B),
      Decision.node (A := B) n ≠ Decision.InputMarker ∧
      Decision.action (N := N) a ≠ Decision.InputMarker) ∧
    (∀ (t : Tree (BinaryNode I A)), BinaryNode.NoMarker t.root →
      ∀ input fuel,
        Tree.decide BinaryNode.decide fuel t input ≠ .panicked) ∧
    (∀ (t : Tree (HashMapNode I A)), HashMapNode.NoMarker t.root →
      ∀ input fuel,
        Tree.decide (fun m i => m.decide i) fuel t input ≠ .panicked) ∧
    (∀ (t : Tree (PredicateListNode I A)), PredicateListNode.NoMarker t.root →
      ∀ input fuel,
        Tree.decide (fun n i => n.decide i) fuel t input ≠ .panicked) := by
  refine ⟨?_, ?_, ?_, ?_⟩
  · intro N B n a
    constructor
    · intro h
      cases h
    · intro h
      cases h
  · intro t hP input fuel
    exact decideLoop_no_panic BinaryNode.binary_safeStep fuel t.root hP input
  · intro t hP input fuel
    exact decideLoop_no_panic HashMapNode.hashmap_safeStep fuel t.root hP input
  · intro t hP input fuel
    exact decideLoop_no_panic PredicateListNode.predicate_list_safeStep fuel t.root hP input

/-- Witness for C9: the binary test tree satisfies the marker-freedom
hypothesis and its traversal at input 0 with fuel 4 does not reach the panic
branch. -/
theorem tree_decide_never_panics_witness :
    BinaryNode.NoMarker create_binary_tree.root ∧
    Tree.decide BinaryNode.decide 4 create_binary_tree 0 ≠ .panicked :=
  ⟨create_binary_tree_noMarker,
    (tree_decide_never_panics Int TestAnswer).2.1 create_binary_tree
      create_binary_tree_noMarker 0 4⟩

/-- C6: the three composition mechanisms agree on the five-region integer
classification for every probe input: the nested binary-split tree of
src/tree.rs, the four-entry ordered predicate-list decider with a Zero
default, and the membership decider over the ranges `..-10`, `-10..0`,
`1..=10`, `11..` with a Zero default all produce one identical answer. -/
theorem composition_mechanisms_equivalent :
    ∀ i : Int, ∃ a : TestAnswer,
      Tree.decide BinaryNode.decide 4 create_binary_tree i = .answer a ∧
      dyn.Decision.decideFuel 2
        (dyn.Decision.new predicated_decider.decide) i = some a ∧
      dyn.Decision.decideFuel 2
        (dyn.Decision.new contains_decider.decide) i = some a := by
  intro i
  by_cases h1 : i < -10
  · refine ⟨.LessThanNegativeTen, ?_, ?_, ?_⟩
    · have c1 : decide (i ≥ 0) = false := decide_eq_false (by omega)
      have c2 : decide (i < -10) = true := decide_eq_true h1
      simp [Tree.decide, decideLoop, create_binary_tree, Tree.new,
        BinaryNode.decide, gte0_node, gt0_node, lt0_node, Decision.node,
        Decision.action, c1, c2]
    · have c2 : decide (i < -10) = true := decide_eq_true h1
      simp [dyn.Decision.decideFuel, predicated_decider,
        dyn.PredicatedNodesDecider.new, dyn.PredicatedNodesDecider.add_answer,
        dyn.PredicatedNodesDecider.add_node, dyn.PredicatedNodesDecider.decide,
        firstMatch, dyn.OwnedNode.toNode, c2]
    · have c1 : decide ((-10 : Int) ≤ i) = false := decide_eq_false (by omega)
      have c2 : decide ((1 : Int) ≤ i) = false := decide_eq_false (by omega)
      have c3 : decide ((11 : Int) ≤ i) = false := decide_eq_false (by omega)
      have c4 : decide (i < -10) = true := decide_eq_true h1
      simp [dyn.Decision.decideFuel, contains_decider,
        dyn.ContainsDecider.new, dyn.ContainsDecider.add_answer,
        dyn.ContainsDecider.add_container, dyn.ContainsDecider.decide,
        firstMatch, dyn.OwnedNode.toNode, Range.contains,
        RangeInclusive.contains, RangeFrom.contains, RangeTo.contains,
        c1, c2, c3, c4]
  · by_cases h2 : i < 0
    · refine ⟨.LessThanZero, ?_, ?_, ?_⟩
      · have c1 : decide (i ≥ 0) = false := decide_eq_false (by omega)
        have c2 : decide (i < -10) = false := decide_eq_false h1
        simp [Tree.decide, decideLoop, create_binary_tree, Tree.new,
          BinaryNode.decide, gte0_node, gt0_node, lt0_node, Decision.node,
          Decision.action, c1, c2]
      · have c1 : decide (i < -10) = false := decide_eq_false h1
        have c2 : decide (i > 10) = false := decide_eq_false (by omega)
        have c3 : decide (i < 0) = true := decide_eq_true h2
        simp [dyn.Decision.decideFuel, predicated_decider,
          dyn.PredicatedNodesDecider.new, dyn.PredicatedNodesDecider.add_answer,
          dyn.PredicatedNodesDecider.add_node, dyn.PredicatedNodesDecider.decide,
          firstMatch, dyn.OwnedNode.toNode, c1, c2, c3]
      · have c1 : decide ((-10 : Int) ≤ i) = true := decide_eq_true (by omega)
        have c2 : decide (i < 0) = true := decide_eq_true h2
        simp [dyn.Decision.decideFuel, contains_decider,
          dyn.ContainsDecider.new, dyn.ContainsDecider.add_answer,
          dyn.ContainsDecider.add_container, dyn.ContainsDecider.decide,
          firstMatch, dyn.OwnedNode.toNode, Range.contains,
          RangeInclusive.contains, RangeFrom.contains, RangeTo.contains,
          c1, c2]
    · by_cases h3 : i = 0
      · subst h3
        refine ⟨.Zero, by rfl, by rfl, by rfl⟩
      · by_cases h4 : i ≤ 10
        · refine ⟨.GreaterThanZero, ?_, ?_, ?_⟩
          · have c1 : decide (i ≥ 0) = true := decide_eq_true (by omega)
            have c2 : decide (i = 0) = false := decide_eq_false h3
            have c3 : decide (i > 10) = false := decide_eq_false (by omega)
            simp [Tree.decide, decideLoop, create_binary_tree, Tree.new,
              BinaryNode.decide, gte0_node, gt0_node, lt0_node, Decision.node,
              Decision.action, c1, c2, c3]
          · have c1 : decide (i < -10) = false := decide_eq_false (by omega)
            have c2 : decide (i > 10) = false := decide_eq_false (by omega)
            have c3 : decide (i < 0) = false := decide_eq_false h2
            have c4 : decide (i > 0) = true := decide_eq_true (by omega)
            simp [dyn.Decision.decideFuel, predicated_decider,
              dyn.PredicatedNodesDecider.new,
              dyn.PredicatedNodesDecider.add_answer,
              dyn.PredicatedNodesDecider.add_node,
              dyn.PredicatedNodesDecider.decide,
              firstMatch, dyn.OwnedNode.toNode, c1, c2, c3, c4]
          · have c1 : decide (i < 0) = false := decide_eq_false h2
            have c2 : decide ((1 : Int) ≤ i) = true := decide_eq_true (by omega)
            have c3 : decide (i ≤ 10) = true := decide_eq_true h4
            simp [dyn.Decision.decideFuel, contains_decider,
              dyn.ContainsDecider.new, dyn.ContainsDecider.add_answer,
              dyn.ContainsDecider.add_container, dyn.ContainsDecider.decide,
              firstMatch, dyn.OwnedNode.toNode, Range.contains,
              RangeInclusive.contains, RangeFrom.contains, RangeTo.contains,
              c1, c2, c3]
        · refine ⟨.GreaterThanTen, ?_, ?_, ?_⟩
          · have c1 : decide (i ≥ 0) = true := decide_eq_true (by omega)
            have c2 : decide (i = 0) = false := decide_eq_false h3
            have c3 : decide (i > 10) = true := decide_eq_true (by omega)
            simp [Tree.decide, decideLoop, create_binary_tree, Tree.new,
              BinaryNode.decide, gte0_node, gt0_node, lt0_node, Decision.node,
              Decision.action, c1, c2, c3]
          · have c1 : decide (i < -10) = false := decide_eq_false (by omega)
            have c2 : decide (i > 10) = true := decide_eq_true (by omega)
            simp [dyn.Decision.decideFuel, predicated_decider,
              dyn.PredicatedNodesDecider.new,
              dyn.PredicatedNodesDecider.add_answer,
              dyn.PredicatedNodesDecider.add_node,
              dyn.PredicatedNodesDecider.decide,
              firstMatch, dyn.OwnedNode.toNode, c1, c2]
          · have c1 : decide (i < 0) = false := decide_eq_false h2
            have c2 : decide ((1 : Int) ≤ i) = true := decide_eq_true (by omega)
            have c3 : decide (i ≤ 10) = false := decide_eq_false h4
            have c4 : decide ((11 : Int) ≤ i) = true := decide_eq_true (by omega)
            simp [dyn.Decision.decideFuel, contains_decider,
              dyn.ContainsDecider.new, dyn.ContainsDecider.add_answer,
              dyn.ContainsDecider.add_container, dyn.ContainsDecider.decide,
              firstMatch, dyn.OwnedNode.toNode, Range.contains,
              RangeInclusive.contains, RangeFrom.contains, RangeTo.contains,
              c1, c2, c3, c4]

end Treacle
